import Mathlib

/-!
Shallow embedding of the XrayRP per-node service core: the limiter
(common/limiter/limiter.go), the Hysteria2 service callbacks and control
loop (service/hysteria2), and the port-hop rule builder.  Go maps are
modelled as association lists, Go sets as lists of keys, 64-bit machine
integers as Int with explicit wrapping where the code can overflow, and
rate.Limiter objects by identity tokens (natural numbers), since the
claims under verification concern which keys share a limiter, not the
token-bucket arithmetic inside golang.org/x/time/rate.
-/

/-- Association-list lookup, mirroring a Go map read: the first binding of
the key wins. -/
def alookup {α : Type} : List (String × α) → String → Option α
  | [], _ => none
  | (k, v) :: rest, key => if k = key then some v else alookup rest key

/-- Association-list overwrite, mirroring a Go map write: replace the first
binding of the key, or append a new binding. -/
def storeKey {α : Type} : List (String × α) → String → α → List (String × α)
  | [], k, v => [(k, v)]
  | (k', v') :: rest, k, v =>
      if k' = k then (k, v) :: rest else (k', v') :: storeKey rest k v

theorem alookup_storeKey {α : Type} (m : List (String × α)) (k q : String) (v : α) :
    alookup (storeKey m k v) q = if k = q then some v else alookup m q := by
  induction m with
  | nil => simp [storeKey, alookup]
  | cons hd tl ih =>
      obtain ⟨k', v'⟩ := hd
      by_cases hk : k' = k
      · subst hk
        by_cases hq : k' = q <;> simp [storeKey, alookup, hq]
      · by_cases hq : k' = q
        · subst hq
          have hkq : ¬ k = k' := fun h => hk h.symm
          simp [storeKey, alookup, hk, hkq]
        · simp [storeKey, alookup, hk, hq, ih]

theorem alookup_append_right {α : Type} (m : List (String × α)) (k q : String) (v : α)
    (h : alookup m q = none) :
    alookup (m ++ [(k, v)]) q = if k = q then some v else none := by
  induction m with
  | nil => simp [alookup]
  | cons hd tl ih =>
      obtain ⟨k', v'⟩ := hd
      by_cases hq : k' = q
      · simp [alookup, hq] at h
      · simp [alookup, hq] at h ⊢
        exact ih h

theorem alookup_append_left {α : Type} (m : List (String × α)) (tail : List (String × α))
    (q : String) (v : α) (h : alookup m q = some v) :
    alookup (m ++ tail) q = some v := by
  induction m with
  | nil => simp [alookup] at h
  | cons hd tl ih =>
      obtain ⟨k', v'⟩ := hd
      by_cases hq : k' = q
      · simp [alookup, hq] at h ⊢
        exact h
      · simp [alookup, hq] at h ⊢
        exact ih h

/-- Wrapping of a mathematical integer into the signed 64-bit range, the
effect of Go int64 arithmetic on overflow. -/
def wrap64 (x : Int) : Int := (x + 2 ^ 63) % 2 ^ 64 - 2 ^ 63

theorem wrap64_eq_of_range (x : Int) (h1 : -(2 ^ 63) ≤ x) (h2 : x < 2 ^ 63) :
    wrap64 x = x := by
  unfold wrap64
  have hlo : (0 : Int) ≤ x + 2 ^ 63 := by omega
  have hhi : x + 2 ^ 63 < 2 ^ 64 := by omega
  rw [Int.emod_eq_of_lt hlo hhi]
  omega

namespace Limiter

/-- Translation of limiter.UserInfo (common/limiter/limiter.go): UID and
DeviceLimit are Go int, SpeedLimit is Go uint64. -/
structure LUserInfo where
  UID : Int
  SpeedLimit : Nat
  DeviceLimit : Int
  deriving DecidableEq, Repr

/-- Translation of limiter.InboundInfo.  The UserOnlineIP two-level
sync.Map becomes a nested association list, the BucketHub stores limiter
identity tokens, and nextBucketId supplies the token of the next
rate.NewLimiter allocation.  The GlobalLimit two-tier cache is external
shared state; only its enable flag is part of the embedded state and the
outcome of the globalLimit cache probe enters getUserBucket as an
explicit argument. -/
structure InboundInfo where
  tag : String
  nodeSpeedLimit : Nat
  userInfoMap : List (String × LUserInfo)
  bucketHub : List (String × Nat)
  userOnlineIP : List (String × List (String × Int))
  globalLimitEnabled : Bool
  nextBucketId : Nat
  deriving DecidableEq, Repr

/-- Translation of determineRate (common/limiter/limiter.go lines
262-281): the minimum non-zero of the two rates, zero meaning
unlimited. -/
def determineRate (nodeLimit userLimit : Nat) : Nat :=
  if nodeLimit = 0 ∨ userLimit = 0 then
    if nodeLimit > userLimit then nodeLimit
    else if nodeLimit < userLimit then userLimit
    else 0
  else
    if nodeLimit > userLimit then userLimit
    else if nodeLimit < userLimit then nodeLimit
    else nodeLimit

/-- Result of a getUserBucket call: the returned triple (limiter,
SpeedLimit, Reject) together with the updated per-tag limiter state. -/
structure BucketResult where
  limiter : Option Nat
  shouldLimit : Bool
  reject : Bool
  state : List (String × InboundInfo)
  deriving DecidableEq, Repr

/-- Continuation of Limiter.GetUserBucket after the local device-limit
step: the globalLimit probe (whose cache outcome is the globalReject
argument), then the effective-rate computation and the BucketHub
insert-or-get (limiter.go lines 199-218). -/
def getUserBucketTail (lim : List (String × InboundInfo)) (tag userKey : String)
    (inbound : InboundInfo) (userLimit : Nat) (globalReject : Bool) : BucketResult :=
  if inbound.globalLimitEnabled ∧ globalReject then
    ⟨none, false, true, storeKey lim tag inbound⟩
  else
    let limit := determineRate inbound.nodeSpeedLimit userLimit
    if limit > 0 then
      match alookup inbound.bucketHub userKey with
      | some bucket => ⟨some bucket, true, false, storeKey lim tag inbound⟩
      | none =>
          let fresh := inbound.nextBucketId
          let inbound1 := { inbound with
            bucketHub := storeKey inbound.bucketHub userKey fresh,
            nextBucketId := fresh + 1 }
          ⟨some fresh, true, false, storeKey lim tag inbound1⟩
    else
      ⟨none, false, false, storeKey lim tag inbound⟩

/-- Translation of Limiter.GetUserBucket (common/limiter/limiter.go lines
164-219).  The local device-limit step inserts ip into the per-user
online-IP submap; a newly inserted ip whose resulting cardinality
exceeds a positive DeviceLimit is deleted again and the call rejects. -/
def getUserBucket (lim : List (String × InboundInfo)) (tag userKey ip : String)
    (globalReject : Bool) : BucketResult :=
  match alookup lim tag with
  | none => ⟨none, false, false, lim⟩
  | some inbound =>
      let info := alookup inbound.userInfoMap userKey
      let uid : Int := match info with | some u => u.UID | none => 0
      let userLimit : Nat := match info with | some u => u.SpeedLimit | none => 0
      let deviceLimit : Int := match info with | some u => u.DeviceLimit | none => 0
      match alookup inbound.userOnlineIP userKey with
      | none =>
          let inbound1 := { inbound with
            userOnlineIP := storeKey inbound.userOnlineIP userKey [(ip, uid)] }
          getUserBucketTail lim tag userKey inbound1 userLimit globalReject
      | some ipMap =>
          match alookup ipMap ip with
          | some _ => getUserBucketTail lim tag userKey inbound userLimit globalReject
          | none =>
              let ipMap1 := ipMap ++ [(ip, uid)]
              if (ipMap1.length : Int) > deviceLimit ∧ deviceLimit > 0 then
                ⟨none, false, true, lim⟩
              else
                let inbound1 := { inbound with
                  userOnlineIP := storeKey inbound.userOnlineIP userKey ipMap1 }
                getUserBucketTail lim tag userKey inbound1 userLimit globalReject

/-- Online-IP submap of a user inside an inbound, the empty map standing
for an absent entry. -/
def submapOf (inbound : InboundInfo) (userKey : String) : List (String × Int) :=
  (alookup inbound.userOnlineIP userKey).getD []

/-- DeviceLimit of a user key inside an inbound, zero for an unknown key,
mirroring the Go zero value taken when UserInfo.Load misses. -/
def deviceLimitOf (inbound : InboundInfo) (userKey : String) : Int :=
  match alookup inbound.userInfoMap userKey with
  | some u => u.DeviceLimit
  | none => 0

/-- SpeedLimit of a user key inside an inbound, zero for an unknown key. -/
def userLimitOf (inbound : InboundInfo) (userKey : String) : Nat :=
  match alookup inbound.userInfoMap userKey with
  | some u => u.SpeedLimit
  | none => 0

end Limiter

namespace Hysteria2

/-- Translation of the Hysteria2Config port-hop fields of api.NodeInfo
that participate in deep-equality comparison and rule building. -/
structure Hy2Config where
  portHopEnabled : Bool
  portHopPorts : String
  deriving DecidableEq, Repr

/-- Translation of the api.NodeInfo fields read by the Hysteria2 service;
the hysteria2Config pointer becomes an Option.  reflect.DeepEqual on two
NodeInfo pointers is structural equality of these values. -/
structure NodeInfo where
  NodeType : String
  NodeID : Int
  Port : Nat
  SpeedLimit : Nat
  EnableTLS : Bool
  SNI : String
  Host : String
  hysteria2Config : Option Hy2Config
  deriving DecidableEq, Repr

/-- Translation of api.UserInfo as consumed by syncUsers. -/
structure UserInfo where
  UID : Int
  Email : String
  UUID : String
  Passwd : String
  DeviceLimit : Int
  SpeedLimit : Nat
  deriving DecidableEq, Repr

/-- Translation of the in-service userRecord (src/unnamed/part_002). -/
structure UserRecord where
  UID : Int
  Email : String
  DeviceLimit : Int
  SpeedLimit : Nat
  deriving DecidableEq, Repr

/-- Translation of userTraffic: two Go int64 counters. -/
structure UserTraffic where
  Upload : Int
  Download : Int
  deriving DecidableEq, Repr

/-- Translation of api.UserTraffic, one entry of the traffic report. -/
structure ApiUserTraffic where
  UID : Int
  Email : String
  Upload : Int
  Download : Int
  deriving DecidableEq, Repr

/-- Translation of api.OnlineUser. -/
structure OnlineUser where
  UID : Int
  IP : String
  deriving DecidableEq, Repr

/-- Mutable per-service state of Hysteria2Service guarded by its mutex
(src/unnamed/part_002): users, traffic, onlineIPs, ipLastActive,
blockedIDs and rateLimiters, plus the current nodeInfo.  Limiters are
identity tokens allocated from nextLimiterId; timestamps are abstract
naturals. -/
structure HyState where
  nodeInfo : Option NodeInfo
  users : List (String × UserRecord)
  traffic : List (String × UserTraffic)
  onlineIPs : List (String × List String)
  ipLastActive : List (String × List (String × Nat))
  blockedIDs : List String
  rateLimiters : List (String × Nat)
  nextLimiterId : Nat
  deriving DecidableEq, Repr

/-- Online-IP set of an auth key, the empty set standing for an absent
map entry. -/
def ipSetOf (st : HyState) (auth : String) : List String :=
  (alookup st.onlineIPs auth).getD []

/-- Last-active map of an auth key. -/
def lastActiveOf (st : HyState) (auth : String) : List (String × Nat) :=
  (alookup st.ipLastActive auth).getD []

/-- Node speed limit read from the current nodeInfo, zero when none is
set, mirroring the nil check in syncUsers. -/
def nodeLimitOf (st : HyState) : Nat :=
  match st.nodeInfo with
  | some ni => ni.SpeedLimit
  | none => 0

/-- Translation of hyAuthenticator.Authenticate
(src/service/hysteria2/auth.go lines 16-74).  The peer address is
modelled by its host string and time.Now by the now argument; tx is
carried but unused, as in the source.  Note that the source materialises
empty onlineIPs and ipLastActive entries for the user before the device
limit check, so the rejection path may create empty map entries but
never changes the set of online IPs. -/
def Authenticate (st : HyState) (host auth : String) (tx : Nat) (now : Nat) :
    Bool × String × HyState :=
  if auth = "" then (false, "", st)
  else
    match alookup st.users auth with
    | none => (false, "", st)
    | some user =>
        let ipSet := (alookup st.onlineIPs auth).getD []
        let activeMap := (alookup st.ipLastActive auth).getD []
        let st1 := { st with
          onlineIPs := storeKey st.onlineIPs auth ipSet,
          ipLastActive := storeKey st.ipLastActive auth activeMap }
        if ipSet.contains host then
          (true, auth, { st1 with
            ipLastActive := storeKey st1.ipLastActive auth (storeKey activeMap host now) })
        else
          if user.DeviceLimit > 0 ∧ (ipSet.length : Int) ≥ user.DeviceLimit then
            (false, "", st1)
          else
            let ipSet1 := ipSet ++ [host]
            (true, auth, { st1 with
              onlineIPs := storeKey st1.onlineIPs auth ipSet1,
              ipLastActive := storeKey st1.ipLastActive auth (storeKey activeMap host now) })

/-- Translation of hyTrafficLogger.LogTraffic (src/unnamed/part_003 lines
297-345).  The rate-limiter WaitN call happens outside the lock and does
not change this state; it is omitted.  Counter accumulation uses int64
wrapping arithmetic. -/
def LogTraffic (st : HyState) (id : String) (tx rx : Nat) : Bool × HyState :=
  if id = "" then (true, st)
  else if st.blockedIDs.contains id then
    (false, { st with blockedIDs := st.blockedIDs.filter (fun x => x ≠ id) })
  else
    match alookup st.users id with
    | none => (true, st)
    | some _ =>
        let counter := (alookup st.traffic id).getD ⟨0, 0⟩
        let counter1 : UserTraffic :=
          ⟨wrap64 (counter.Upload + wrap64 (tx : Int)),
           wrap64 (counter.Download + wrap64 (rx : Int))⟩
        (true, { st with traffic := storeKey st.traffic id counter1 })

/-- One pass of the collectUsage traffic loop (src/unnamed/part_003 lines
466-489) over the traffic entries in order: report rows, snapshot of the
reported counters, and the traffic map with reported counters reset. -/
def collectTraffic (users : List (String × UserRecord)) :
    List (String × UserTraffic) →
    List ApiUserTraffic × List (String × UserTraffic) × List (String × UserTraffic)
  | [] => ([], [], [])
  | (k, t) :: rest =>
      let r := collectTraffic users rest
      match alookup users k with
      | none => (r.1, r.2.1, (k, t) :: r.2.2)
      | some u =>
          if t.Upload = 0 ∧ t.Download = 0 then (r.1, r.2.1, (k, t) :: r.2.2)
          else
            (⟨u.UID, u.Email, t.Upload, t.Download⟩ :: r.1,
             (k, t) :: r.2.1,
             (k, ⟨0, 0⟩) :: r.2.2)

/-- Online-user rows drained by collectUsage (src/unnamed/part_003 lines
493-502): one row per ip of each auth key still present in the user
map. -/
def collectOnline (users : List (String × UserRecord)) :
    List (String × List String) → List OnlineUser
  | [] => []
  | (k, ipSet) :: rest =>
      match alookup users k with
      | none => collectOnline users rest
      | some u => ipSet.map (fun ip => OnlineUser.mk u.UID ip) ++ collectOnline users rest

/-- Translation of Hysteria2Service.collectUsage (src/unnamed/part_003
lines 460-512): build the traffic report and snapshot, reset reported
counters, drain online users, and clear onlineIPs and ipLastActive. -/
def collectUsage (st : HyState) :
    (List ApiUserTraffic × List OnlineUser × List (String × UserTraffic)) × HyState :=
  let r := collectTraffic st.users st.traffic
  let online := collectOnline st.users st.onlineIPs
  ((r.1, online, r.2.1),
   { st with traffic := r.2.2, onlineIPs := [], ipLastActive := [] })

/-- Merge of one snapshot entry into the traffic counters, creating a
zero counter when the key is absent (restoreTraffic loop body). -/
def restoreOne (traffic : List (String × UserTraffic)) (kv : String × UserTraffic) :
    List (String × UserTraffic) :=
  let counter := (alookup traffic kv.1).getD ⟨0, 0⟩
  storeKey traffic kv.1
    ⟨wrap64 (counter.Upload + kv.2.Upload), wrap64 (counter.Download + kv.2.Download)⟩

/-- Translation of Hysteria2Service.restoreTraffic (src/unnamed/part_003
lines 517-534). -/
def restoreTraffic (st : HyState) (snapshot : List (String × UserTraffic)) : HyState :=
  if snapshot = [] then st
  else { st with traffic := snapshot.foldl restoreOne st.traffic }

end Hysteria2

namespace Hysteria2

/-- Translation of determineRate (src/unnamed/part_003 lines 436-452),
the Hysteria2 copy of the limiter helper. -/
def determineRate (nodeLimit userLimit : Nat) : Nat :=
  if nodeLimit = 0 ∨ userLimit = 0 then
    if nodeLimit > userLimit then nodeLimit
    else if nodeLimit < userLimit then userLimit
    else 0
  else
    if nodeLimit > userLimit then userLimit
    else if nodeLimit < userLimit then nodeLimit
    else nodeLimit

/-- Accumulator of the syncUsers loop: the new user map, the new limiter
map, the traffic map mutated in place, and the allocation counter for
fresh limiters. -/
structure SyncAcc where
  newUsers : List (String × UserRecord)
  newRateLimiters : List (String × Nat)
  traffic : List (String × UserTraffic)
  nextId : Nat
  deriving DecidableEq, Repr

/-- Limiter-reuse scan of syncUsers (src/unnamed/part_003 lines 387-397):
the first non-empty key bound in the old rateLimiters map yields its
limiter. -/
def reuseLimiter (oldRL : List (String × Nat)) : List String → Option Nat
  | [] => none
  | k :: rest =>
      if k = "" then reuseLimiter oldRL rest
      else
        match alookup oldRL k with
        | some id => some id
        | none => reuseLimiter oldRL rest

/-- Body of the inner key loop of syncUsers (src/unnamed/part_003 lines
403-416): skip empty keys, insert the record if absent, bind the limiter
if one exists, and ensure a zero traffic counter. -/
def applyKey (record : UserRecord) (limiter : Option Nat) (acc : SyncAcc) (k : String) :
    SyncAcc :=
  if k = "" then acc
  else
    { acc with
      newUsers :=
        if (alookup acc.newUsers k).isSome then acc.newUsers
        else acc.newUsers ++ [(k, record)],
      newRateLimiters :=
        match limiter with
        | some l => storeKey acc.newRateLimiters k l
        | none => acc.newRateLimiters,
      traffic :=
        if (alookup acc.traffic k).isSome then acc.traffic
        else acc.traffic ++ [(k, ⟨0, 0⟩)] }

/-- Body of the outer user loop of syncUsers (src/unnamed/part_003 lines
372-417): compute the effective rate, reuse or allocate a limiter when
the rate is positive, then run the key loop over UUID and Passwd. -/
def syncOneUser (oldRL : List (String × Nat)) (nodeLimit : Nat) (acc : SyncAcc)
    (u : UserInfo) : SyncAcc :=
  let keys := [u.UUID, u.Passwd]
  let record : UserRecord := ⟨u.UID, u.Email, u.DeviceLimit, u.SpeedLimit⟩
  let limit := determineRate nodeLimit u.SpeedLimit
  let alloc : Option Nat × Nat :=
    if limit > 0 then
      match reuseLimiter oldRL keys with
      | some id => (some id, acc.nextId)
      | none => (some acc.nextId, acc.nextId + 1)
    else (none, acc.nextId)
  keys.foldl (applyKey record alloc.1) { acc with nextId := alloc.2 }

/-- Translation of Hysteria2Service.syncUsers (src/unnamed/part_003 lines
356-434): rebuild users and rateLimiters, keep traffic counters, and
drop onlineIPs and ipLastActive entries of removed auth keys. -/
def syncUsers (st : HyState) (userInfo : Option (List UserInfo)) : HyState :=
  match userInfo with
  | none => st
  | some list =>
      let acc0 : SyncAcc := ⟨[], [], st.traffic, st.nextLimiterId⟩
      let acc := list.foldl (syncOneUser st.rateLimiters (nodeLimitOf st)) acc0
      { st with
        users := acc.newUsers,
        rateLimiters := acc.newRateLimiters,
        traffic := acc.traffic,
        nextLimiterId := acc.nextId,
        onlineIPs := st.onlineIPs.filter (fun kv => (alookup acc.newUsers kv.1).isSome),
        ipLastActive := st.ipLastActive.filter (fun kv => (alookup acc.newUsers kv.1).isSome) }

/-- Panel and firewall side effects performed by a monitor body, in
order. -/
inductive HyEffect where
  | reportNodeStatus
  | getUserList
  | getNodeRule
  | updateRule
  | reportUserTraffic (uts : List ApiUserTraffic)
  | reportNodeOnlineUsers (online : List OnlineUser)
  | reportIllegal
  | getNodeInfo
  | reloadNode (info : NodeInfo)
  | renewCert
  deriving DecidableEq, Repr

/-- Sentinel error string api.UserNotModified (src/unnamed/part_000). -/
def UserNotModified : String := "users not modified"

/-- Sentinel error string api.NodeNotModified (src/unnamed/part_000). -/
def NodeNotModified : String := "node not modified"

/-- Controller configuration fields consumed by the monitor bodies. -/
structure HyConfig where
  updatePeriodic : Nat
  disableGetRule : Bool
  disableUploadTraffic : Bool
  certConfigPresent : Bool
  certMode : String
  deriving DecidableEq, Repr

/-- External responses consumed by one userMonitor run: system stats,
the user list fetch, the rule list fetch, the traffic report outcome and
the drained detect results. -/
structure UserMonitorOracle where
  sysInfoOk : Bool
  userList : Except String (List UserInfo)
  ruleList : Except String Nat
  reportTrafficErr : Bool
  detectCount : Except String Nat
  deriving Repr

/-- Tail of userMonitor after the user-list step (src/unnamed/part_003
lines 571-616): rule refresh, usage collection and reporting with
restore on failure, online-user report, and illegal report. -/
def userMonitorTail (cfg : HyConfig) (o : UserMonitorOracle) (st : HyState)
    (eff : List HyEffect) : HyState × List HyEffect :=
  let eff1 :=
    if ¬cfg.disableGetRule then
      match o.ruleList with
      | .error _ => eff ++ [HyEffect.getNodeRule]
      | .ok n =>
          if n > 0 then eff ++ [HyEffect.getNodeRule, HyEffect.updateRule]
          else eff ++ [HyEffect.getNodeRule]
    else eff
  let collected := collectUsage st
  let uts := collected.1.1
  let online := collected.1.2.1
  let snap := collected.1.2.2
  let st1 := collected.2
  let afterReport : HyState × List HyEffect :=
    if uts ≠ [] then
      if ¬cfg.disableUploadTraffic then
        if o.reportTrafficErr then
          (restoreTraffic st1 snap, eff1 ++ [HyEffect.reportUserTraffic uts])
        else (st1, eff1 ++ [HyEffect.reportUserTraffic uts])
      else (st1, eff1)
    else (st1, eff1)
  let eff2 :=
    if online ≠ [] then afterReport.2 ++ [HyEffect.reportNodeOnlineUsers online]
    else afterReport.2
  let eff3 :=
    match o.detectCount with
    | .error _ => eff2
    | .ok n => if n > 0 then eff2 ++ [HyEffect.reportIllegal] else eff2
  (afterReport.1, eff3)

/-- Translation of Hysteria2Service.userMonitor (src/unnamed/part_003
lines 540-617).  The opening guard returns before any panel call when
less than one update interval has elapsed since startAt. -/
def userMonitor (elapsed : Nat) (cfg : HyConfig) (o : UserMonitorOracle)
    (st : HyState) : HyState × List HyEffect :=
  if elapsed < cfg.updatePeriodic then (st, [])
  else
    let statusEff : List HyEffect :=
      if o.sysInfoOk then [HyEffect.reportNodeStatus] else []
    let baseEff := statusEff ++ [HyEffect.getUserList]
    match o.userList with
    | .error msg =>
        if msg = UserNotModified then userMonitorTail cfg o st baseEff
        else (st, baseEff)
    | .ok list => userMonitorTail cfg o (syncUsers st (some list)) baseEff

/-- State change of reloadNode visible in HyState
(src/service/hysteria2/service.go lines 176-260): after validation the
current nodeInfo is replaced; the server rebuild, port-hop refresh and
cert-domain bookkeeping act on external resources. -/
def reloadNodeModel (cfg : HyConfig) (st : HyState) (info : NodeInfo) : HyState :=
  if info.NodeType ≠ "Hysteria2" then st
  else if info.Port = 0 then st
  else if info.hysteria2Config.isNone then st
  else if ¬cfg.certConfigPresent then st
  else { st with nodeInfo := some info }

/-- Translation of Hysteria2Service.nodeMonitor (src/unnamed/part_003
lines 623-659): delay guard, node fetch, NotModified and error skips,
node-type check, deep-equality skip, and reload otherwise. -/
def nodeMonitor (elapsed : Nat) (cfg : HyConfig)
    (fetch : Except String (Option NodeInfo)) (st : HyState) :
    HyState × List HyEffect :=
  if elapsed < cfg.updatePeriodic then (st, [])
  else
    match fetch with
    | .error _ => (st, [HyEffect.getNodeInfo])
    | .ok none => (st, [HyEffect.getNodeInfo])
    | .ok (some info) =>
        if info.NodeType ≠ "Hysteria2" then (st, [HyEffect.getNodeInfo])
        else if st.nodeInfo = some info then (st, [HyEffect.getNodeInfo])
        else (reloadNodeModel cfg st info, [HyEffect.getNodeInfo, HyEffect.reloadNode info])

/-- External outcomes consumed by one certMonitor run: whether
mylego.New failed, and the RenewCert result (its ok flag, or an
error). -/
structure CertMonitorOracle where
  legoNewErr : Bool
  renew : Except String Bool
  deriving Repr

/-- Translation of Hysteria2Service.certMonitor
(src/service/hysteria2/service.go lines 412-445).  The body has no
startAt delay guard: whenever TLS is enabled and the cert mode is an
ACME mode, it attempts a renewal, and on an actual renewal it reloads
the node. -/
def certMonitor (cfg : HyConfig) (o : CertMonitorOracle) (st : HyState) :
    HyState × List HyEffect :=
  if ¬cfg.certConfigPresent then (st, [])
  else
    match st.nodeInfo with
    | none => (st, [])
    | some ni =>
        if ¬ni.EnableTLS then (st, [])
        else if cfg.certMode = "dns" ∨ cfg.certMode = "http" ∨ cfg.certMode = "tls" then
          if o.legoNewErr then (st, [])
          else
            match o.renew with
            | .error _ => (st, [HyEffect.renewCert])
            | .ok false => (st, [HyEffect.renewCert])
            | .ok true =>
                (reloadNodeModel cfg st ni,
                 [HyEffect.renewCert, HyEffect.reloadNode ni])
        else (st, [])

end Hysteria2

namespace Hysteria2

/-- Separator predicate of the FieldsFunc split in buildPortHopRules
(src/unnamed/part_003 lines 737-739): comma, fullwidth comma, and ASCII
whitespace. -/
def isSepChar (c : Char) : Bool :=
  c = ',' || c = Char.ofNat 0xFF0C || c = ' ' || c = '\t' || c = '\n' || c = '\r'

/-- Splitting of a character list into maximal runs of non-separator
characters, mirroring strings.FieldsFunc: empty fields are dropped. -/
def fieldsFunc : List Char → List Char → List (List Char)
  | [], acc => if acc = [] then [] else [acc.reverse]
  | c :: rest, acc =>
      if isSepChar c then
        if acc = [] then fieldsFunc rest []
        else acc.reverse :: fieldsFunc rest []
      else fieldsFunc rest (c :: acc)

/-- Whitespace predicate of strings.TrimSpace, unicode.IsSpace over the
Latin-1 range. -/
def isGoSpace (c : Char) : Bool :=
  c = ' ' || c = '\t' || c = '\n' || c = '\r' ||
  c = Char.ofNat 0x0B || c = Char.ofNat 0x0C || c = Char.ofNat 0x85 || c = Char.ofNat 0xA0

/-- Removal of leading whitespace. -/
def trimLeftGo : List Char → List Char
  | [] => []
  | c :: rest => if isGoSpace c then trimLeftGo rest else c :: rest

/-- Translation of strings.TrimSpace on a character list. -/
def trimGo (s : List Char) : List Char :=
  ((trimLeftGo ((trimLeftGo s).reverse)).reverse)

/-- Decimal digit run parser used by atoi. -/
def parseDigits : List Char → Nat → Option Nat
  | [], acc => some acc
  | c :: rest, acc =>
      if c.isDigit then parseDigits rest (acc * 10 + (c.toNat - 48)) else none

/-- Translation of strconv.Atoi as used on port segments: an optional
sign followed by at least one digit.  The int64 overflow clamp of the Go
implementation is not modelled; every caller rejects values outside
1..65535 immediately, under which the two agree. -/
def atoi (s : List Char) : Option Int :=
  match s with
  | [] => none
  | '+' :: rest =>
      match rest with
      | [] => none
      | _ => (parseDigits rest 0).map (fun n => (n : Int))
  | '-' :: rest =>
      match rest with
      | [] => none
      | _ => (parseDigits rest 0).map (fun n => -(n : Int))
  | _ => (parseDigits s 0).map (fun n => (n : Int))

/-- Split of a segment at its first dash, mirroring strings.Index(seg,
while keeping the characters on each side. -/
def splitAtDash : List Char → Option (List Char × List Char)
  | [] => none
  | c :: rest =>
      if c = '-' then some ([], rest)
      else (splitAtDash rest).map (fun p => (c :: p.1, p.2))

/-- Translation of the portHopRule structure: from-range and redirect
target, all uint16 in the source. -/
structure PortHopRule where
  FromPortStart : Nat
  FromPortEnd : Nat
  ToPort : Nat
  deriving DecidableEq, Repr

/-- Truncation of a Go int to uint16, the conversion applied when a rule
is built. -/
def toU16 (n : Int) : Nat := (n % 65536).toNat

/-- Rule emission for an ordered, validated range (src/unnamed/part_003
lines 779-806): split around the base port when it lies inside, emit
the whole segment otherwise. -/
def contRangeOrdered (basePort : Nat) (lo hi : Int) : List PortHopRule :=
  if lo ≤ (basePort : Int) ∧ (basePort : Int) ≤ hi then
    (if (basePort : Int) > lo then [⟨toU16 lo, toU16 ((basePort : Int) - 1), basePort⟩]
     else []) ++
    (if (basePort : Int) < hi then [⟨toU16 ((basePort : Int) + 1), toU16 hi, basePort⟩]
     else [])
  else [⟨toU16 lo, toU16 hi, basePort⟩]

/-- Range handling of one parsed segment (src/unnamed/part_003 lines
771-806): validate both ends, normalise the order, and emit the
rules. -/
def contRange (basePort : Nat) (s e : Int) : List PortHopRule :=
  if s < 1 ∨ s > 65535 ∨ e < 1 ∨ e > 65535 then []
  else contRangeOrdered basePort (if s > e then e else s) (if s > e then s else e)

/-- Parsing of one comma-separated part (src/unnamed/part_003 lines
747-769): trim, split at a dash into two numbers or read a single
port, and hand the range on; malformed parts contribute no rules. -/
def segRules (basePort : Nat) (part : List Char) : List PortHopRule :=
  let seg := trimGo part
  if seg = [] then []
  else
    match splitAtDash seg with
    | some lr =>
        match atoi (trimGo lr.1), atoi (trimGo lr.2) with
        | some s, some e => contRange basePort s e
        | _, _ => []
    | none =>
        match atoi seg with
        | some p => contRange basePort p p
        | none => []

/-- Translation of buildPortHopRules (src/unnamed/part_003 lines
732-809). -/
def buildPortHopRules (basePort : Nat) (portsExpr : String) : List PortHopRule :=
  if portsExpr = "" then []
  else
    let parts := fieldsFunc portsExpr.toList []
    if parts = [] then []
    else parts.flatMap (segRules basePort)

end Hysteria2

namespace Hysteria2

theorem toU16_cast (x : Int) (h0 : 0 ≤ x) (h1 : x < 65536) : (toU16 x : Int) = x := by
  unfold toU16
  rw [Int.emod_eq_of_lt h0 h1]
  exact Int.toNat_of_nonneg h0

theorem contRangeOrdered_excludes (base : Nat) (lo hi : Int) (r : PortHopRule)
    (hlo1 : 1 ≤ lo) (hlo2 : lo ≤ 65535) (hhi1 : 1 ≤ hi) (hhi2 : hi ≤ 65535)
    (hr : r ∈ contRangeOrdered base lo hi) :
    ¬(r.FromPortStart ≤ base ∧ base ≤ r.FromPortEnd) := by
  unfold contRangeOrdered at hr
  split at hr
  · rename_i hin
    obtain ⟨hlobp, hbphi⟩ := hin
    rw [List.mem_append] at hr
    rcases hr with hr | hr
    · split at hr
      · rename_i hgt
        simp only [List.mem_singleton] at hr
        subst hr
        rintro ⟨h1, h2⟩
        have e2 : (toU16 ((base : Int) - 1) : Int) = (base : Int) - 1 :=
          toU16_cast _ (by omega) (by omega)
        have h2i : (base : Int) ≤ (toU16 ((base : Int) - 1) : Int) := by exact_mod_cast h2
        omega
      · simp at hr
    · split at hr
      · rename_i hlt
        simp only [List.mem_singleton] at hr
        subst hr
        rintro ⟨h1, h2⟩
        have e1 : (toU16 ((base : Int) + 1) : Int) = (base : Int) + 1 :=
          toU16_cast _ (by omega) (by omega)
        have h1i : (toU16 ((base : Int) + 1) : Int) ≤ (base : Int) := by exact_mod_cast h1
        omega
      · simp at hr
  · rename_i hout
    simp only [List.mem_singleton] at hr
    subst hr
    rintro ⟨h1, h2⟩
    have e1 : (toU16 lo : Int) = lo := toU16_cast _ (by omega) (by omega)
    have e2 : (toU16 hi : Int) = hi := toU16_cast _ (by omega) (by omega)
    have h1i : (toU16 lo : Int) ≤ (base : Int) := by exact_mod_cast h1
    have h2i : (base : Int) ≤ (toU16 hi : Int) := by exact_mod_cast h2
    omega

theorem contRange_excludes (base : Nat) (s e : Int) (r : PortHopRule)
    (hr : r ∈ contRange base s e) :
    ¬(r.FromPortStart ≤ base ∧ base ≤ r.FromPortEnd) := by
  unfold contRange at hr
  split at hr
  · simp at hr
  · rename_i hvalid
    push_neg at hvalid
    obtain ⟨hs1, hs2, he1, he2⟩ := hvalid
    by_cases hse : s > e
    · simp only [hse, if_true] at hr
      exact contRangeOrdered_excludes base e s r (by omega) (by omega) (by omega) (by omega) hr
    · simp only [hse, if_false] at hr
      exact contRangeOrdered_excludes base s e r (by omega) (by omega) (by omega) (by omega) hr

theorem segRules_excludes (base : Nat) (part : List Char) (r : PortHopRule)
    (hr : r ∈ segRules base part) :
    ¬(r.FromPortStart ≤ base ∧ base ≤ r.FromPortEnd) := by
  simp only [segRules] at hr
  split at hr
  · simp at hr
  · split at hr
    · split at hr
      · exact contRange_excludes _ _ _ _ hr
      · simp at hr
    · split at hr
      · exact contRange_excludes _ _ _ _ hr
      · simp at hr

/-- C6: buildPortHopRules with base 30000 and expression
30000-50000,60000 yields exactly the rules 30001-50000 to 30000 and
60000-60000 to 30000; and for every base port and ports expression, no
emitted rule has a from-range containing the base port itself. -/
theorem buildPortHopRules_excludes_base :
    buildPortHopRules 30000 "30000-50000,60000" =
      [⟨30001, 50000, 30000⟩, ⟨60000, 60000, 30000⟩] ∧
    ∀ (basePort : Nat) (portsExpr : String) (r : PortHopRule),
      r ∈ buildPortHopRules basePort portsExpr →
      ¬(r.FromPortStart ≤ basePort ∧ basePort ≤ r.FromPortEnd) := by
  refine ⟨by decide, ?_⟩
  intro basePort portsExpr r hr
  simp only [buildPortHopRules] at hr
  split at hr
  · simp at hr
  · split at hr
    · simp at hr
    · rw [List.mem_flatMap] at hr
      obtain ⟨part, _, hmem⟩ := hr
      exact segRules_excludes basePort part r hmem

/-- C6 witness: the general exclusion applied to the first rule of the
concrete scenario. -/
theorem buildPortHopRules_excludes_base_witness :
    ¬((30001 : Nat) ≤ 30000 ∧ (30000 : Nat) ≤ 50000) := by
  have h := buildPortHopRules_excludes_base.2 30000 "30000-50000,60000"
    ⟨30001, 50000, 30000⟩ (by decide)
  exact h

end Hysteria2

namespace Limiter

theorem getUserBucketTail_rate_zero (lim : List (String × InboundInfo))
    (tag userKey : String) (inbound : InboundInfo) (userLimit : Nat) (gr : Bool)
    (h : determineRate inbound.nodeSpeedLimit userLimit = 0) :
    (getUserBucketTail lim tag userKey inbound userLimit gr).limiter = none ∧
    (getUserBucketTail lim tag userKey inbound userLimit gr).shouldLimit = false ∧
    ∃ inbound1,
      alookup (getUserBucketTail lim tag userKey inbound userLimit gr).state tag =
        some inbound1 ∧
      inbound1.bucketHub = inbound.bucketHub := by
  have hstore : ∀ inbound1 : InboundInfo,
      alookup (storeKey lim tag inbound1) tag = some inbound1 := by
    intro inbound1
    rw [alookup_storeKey]
    simp
  unfold getUserBucketTail
  split
  · exact ⟨rfl, rfl, inbound, hstore inbound, rfl⟩
  · simp only [h]
    norm_num
    exact ⟨inbound, hstore inbound, rfl⟩

/-- C5 counterexample: the claim asserts that a zero effective rate
forces the return value (nil, false, false); but a zero-rate user can
still be rejected by the local device limit, in which case Reject is
true.  Here the user alice has DeviceLimit 1 and both speed limits 0,
one ip is online, and a second ip is rejected. -/
theorem getUserBucket_zero_rate_counterexample :
    determineRate
        (InboundInfo.mk "t" 0 [("alice", ⟨1, 0, 1⟩)] [] [("alice", [("1.1.1.1", 1)])]
          false 0).nodeSpeedLimit
        (userLimitOf
          (InboundInfo.mk "t" 0 [("alice", ⟨1, 0, 1⟩)] [] [("alice", [("1.1.1.1", 1)])]
            false 0) "alice") = 0 ∧
    (getUserBucket
        [("t", InboundInfo.mk "t" 0 [("alice", ⟨1, 0, 1⟩)] [] [("alice", [("1.1.1.1", 1)])]
          false 0)]
        "t" "alice" "2.2.2.2" false).reject = true := by
  exact ⟨by decide, by decide⟩

/-- C5 (amended): determineRate returns the minimum non-zero of its two
arguments on the five concrete pairs of the spec; and whenever the
effective rate of the addressed user is zero, GetUserBucket returns no
limiter with shouldLimit false and leaves the bucket hub of the inbound
unchanged, storing no bucket for the user key. -/
theorem determineRate_min_nonzero_and_no_bucket :
    determineRate 0 0 = 0 ∧ determineRate 100 0 = 100 ∧ determineRate 0 50 = 50 ∧
    determineRate 100 50 = 50 ∧ determineRate 50 100 = 50 ∧
    ∀ (lim : List (String × InboundInfo)) (tag userKey ip : String) (gr : Bool)
      (inbound : InboundInfo),
      alookup lim tag = some inbound →
      determineRate inbound.nodeSpeedLimit (userLimitOf inbound userKey) = 0 →
      (getUserBucket lim tag userKey ip gr).limiter = none ∧
      (getUserBucket lim tag userKey ip gr).shouldLimit = false ∧
      ∃ inbound1,
        alookup (getUserBucket lim tag userKey ip gr).state tag = some inbound1 ∧
        inbound1.bucketHub = inbound.bucketHub := by
  refine ⟨by decide, by decide, by decide, by decide, by decide, ?_⟩
  intro lim tag userKey ip gr inbound htag hrate
  have huser : (match alookup inbound.userInfoMap userKey with
      | some u => u.SpeedLimit
      | none => 0) = userLimitOf inbound userKey := rfl
  unfold getUserBucket
  rw [htag]
  dsimp only
  split
  · exact getUserBucketTail_rate_zero lim tag userKey _ _ gr (by rw [huser]; exact hrate)
  · split
    · exact getUserBucketTail_rate_zero lim tag userKey _ _ gr (by rw [huser]; exact hrate)
    · split
      · exact ⟨rfl, rfl, inbound, htag, rfl⟩
      · exact getUserBucketTail_rate_zero lim tag userKey _ _ gr (by rw [huser]; exact hrate)

/-- C5 witness: the amended theorem applied to a one-entry limiter state
whose addressed user is unknown, so both limits are zero. -/
theorem determineRate_min_nonzero_and_no_bucket_witness :
    (getUserBucket [("t", InboundInfo.mk "t" 0 [] [] [] false 0)]
        "t" "bob" "1.2.3.4" false).limiter = none ∧
    (getUserBucket [("t", InboundInfo.mk "t" 0 [] [] [] false 0)]
        "t" "bob" "1.2.3.4" false).shouldLimit = false ∧
    ∃ inbound1,
      alookup (getUserBucket [("t", InboundInfo.mk "t" 0 [] [] [] false 0)]
          "t" "bob" "1.2.3.4" false).state "t" = some inbound1 ∧
      inbound1.bucketHub = (InboundInfo.mk "t" 0 [] [] [] false 0).bucketHub :=
  determineRate_min_nonzero_and_no_bucket.2.2.2.2.2
    [("t", InboundInfo.mk "t" 0 [] [] [] false 0)] "t" "bob" "1.2.3.4" false
    (InboundInfo.mk "t" 0 [] [] [] false 0) (by decide) (by decide)

end Limiter

namespace Limiter

theorem getUserBucketTail_no_global (lim : List (String × InboundInfo))
    (tag userKey : String) (inbound : InboundInfo) (userLimit : Nat) (gr : Bool)
    (h : inbound.globalLimitEnabled = false) :
    (getUserBucketTail lim tag userKey inbound userLimit gr).reject = false := by
  unfold getUserBucketTail
  split
  · rename_i hg
    rw [h] at hg
    simp at hg
  · dsimp only
    split
    · split <;> rfl
    · rfl

/-- C4: with the global device limit disabled, GetUserBucket rejects
exactly when the ip is newly inserted into the user online-IP submap
and the resulting cardinality exceeds a positive DeviceLimit; on
rejection the insert is undone, leaving the limiter state unchanged;
and an ip already present in the submap never causes rejection. -/
theorem getUserBucket_local_device_limit (lim : List (String × InboundInfo))
    (tag userKey ip : String) (gr : Bool) (inbound : InboundInfo)
    (htag : alookup lim tag = some inbound)
    (hglobal : inbound.globalLimitEnabled = false) :
    ((getUserBucket lim tag userKey ip gr).reject = true ↔
      (alookup (submapOf inbound userKey) ip = none ∧
       ((submapOf inbound userKey).length + 1 : Int) > deviceLimitOf inbound userKey ∧
       deviceLimitOf inbound userKey > 0)) ∧
    ((getUserBucket lim tag userKey ip gr).reject = true →
      (getUserBucket lim tag userKey ip gr).state = lim) ∧
    (alookup (submapOf inbound userKey) ip ≠ none →
      (getUserBucket lim tag userKey ip gr).reject = false) := by
  have hdev : (match alookup inbound.userInfoMap userKey with
      | some u => u.DeviceLimit
      | none => 0) = deviceLimitOf inbound userKey := rfl
  unfold getUserBucket
  rw [htag]
  dsimp only
  split
  · rename_i heq
    have hsub : submapOf inbound userKey = [] := by
      unfold submapOf
      rw [heq]
      rfl
    rw [hsub, getUserBucketTail_no_global lim tag userKey _ _ gr (by exact hglobal)]
    refine ⟨?_, ?_, ?_⟩
    · simp only [alookup, List.length_nil]
      constructor
      · intro h
        cases h
      · rintro ⟨-, h2, h3⟩
        omega
    · intro h
      cases h
    · intro _
      rfl
  · rename_i ipMap heq
    have hsub : submapOf inbound userKey = ipMap := by
      unfold submapOf
      rw [heq]
      rfl
    rw [hsub]
    split
    · rename_i uid0 hip
      rw [getUserBucketTail_no_global lim tag userKey _ _ gr (by exact hglobal)]
      refine ⟨?_, ?_, ?_⟩
      · constructor
        · intro h
          cases h
        · rintro ⟨h1, -, -⟩
          rw [hip] at h1
          cases h1
      · intro h
        cases h
      · intro _
        rfl
    · rename_i hip
      split
      · rename_i hcond
        rw [hdev] at hcond
        refine ⟨?_, fun _ => rfl, ?_⟩
        · constructor
          · intro _
            refine ⟨hip, ?_, hcond.2⟩
            have hlen := hcond.1
            simp only [List.length_append, List.length_singleton] at hlen
            push_cast at hlen ⊢
            omega
          · intro _
            rfl
        · intro hne
          exact absurd hip hne
      · rename_i hcond
        rw [hdev] at hcond
        rw [getUserBucketTail_no_global lim tag userKey _ _ gr (by exact hglobal)]
        refine ⟨?_, ?_, ?_⟩
        · constructor
          · intro h
            cases h
          · rintro ⟨-, h2, h3⟩
            exfalso
            apply hcond
            refine ⟨?_, h3⟩
            simp only [List.length_append, List.length_singleton]
            push_cast at h2 ⊢
            omega
        · intro h
          cases h
        · intro _
          rfl

/-- C4 witness: user alice with DeviceLimit 2 and one online ip; a
second, new ip does not reject since the resulting cardinality 2 does
not exceed the limit. -/
theorem getUserBucket_local_device_limit_witness :
    ((getUserBucket
        [("t", InboundInfo.mk "t" 0 [("alice", ⟨1, 0, 2⟩)] []
          [("alice", [("1.1.1.1", 1)])] false 0)] "t" "alice" "2.2.2.2" false).reject = true ↔
      (alookup (submapOf (InboundInfo.mk "t" 0 [("alice", ⟨1, 0, 2⟩)] []
          [("alice", [("1.1.1.1", 1)])] false 0) "alice") "2.2.2.2" = none ∧
       ((submapOf (InboundInfo.mk "t" 0 [("alice", ⟨1, 0, 2⟩)] []
          [("alice", [("1.1.1.1", 1)])] false 0) "alice").length + 1 : Int) >
         deviceLimitOf (InboundInfo.mk "t" 0 [("alice", ⟨1, 0, 2⟩)] []
          [("alice", [("1.1.1.1", 1)])] false 0) "alice" ∧
       deviceLimitOf (InboundInfo.mk "t" 0 [("alice", ⟨1, 0, 2⟩)] []
          [("alice", [("1.1.1.1", 1)])] false 0) "alice" > 0)) ∧
    ((getUserBucket
        [("t", InboundInfo.mk "t" 0 [("alice", ⟨1, 0, 2⟩)] []
          [("alice", [("1.1.1.1", 1)])] false 0)] "t" "alice" "2.2.2.2" false).reject = true →
      (getUserBucket
        [("t", InboundInfo.mk "t" 0 [("alice", ⟨1, 0, 2⟩)] []
          [("alice", [("1.1.1.1", 1)])] false 0)] "t" "alice" "2.2.2.2" false).state =
        [("t", InboundInfo.mk "t" 0 [("alice", ⟨1, 0, 2⟩)] []
          [("alice", [("1.1.1.1", 1)])] false 0)]) ∧
    (alookup (submapOf (InboundInfo.mk "t" 0 [("alice", ⟨1, 0, 2⟩)] []
          [("alice", [("1.1.1.1", 1)])] false 0) "alice") "2.2.2.2" ≠ none →
      (getUserBucket
        [("t", InboundInfo.mk "t" 0 [("alice", ⟨1, 0, 2⟩)] []
          [("alice", [("1.1.1.1", 1)])] false 0)] "t" "alice" "2.2.2.2" false).reject =
        false) :=
  getUserBucket_local_device_limit
    [("t", InboundInfo.mk "t" 0 [("alice", ⟨1, 0, 2⟩)] []
      [("alice", [("1.1.1.1", 1)])] false 0)]
    "t" "alice" "2.2.2.2" false
    (InboundInfo.mk "t" 0 [("alice", ⟨1, 0, 2⟩)] [] [("alice", [("1.1.1.1", 1)])] false 0)
    (by decide) rfl

end Limiter

namespace Hysteria2

theorem auth_empty_rejected (st : HyState) (host : String) (tx now : Nat) :
    Authenticate st host "" tx now = (false, "", st) := by
  unfold Authenticate
  simp

theorem auth_unknown_rejected (st : HyState) (host auth : String) (tx now : Nat)
    (h1 : auth ≠ "") (h2 : alookup st.users auth = none) :
    Authenticate st host auth tx now = (false, "", st) := by
  unfold Authenticate
  rw [if_neg h1, h2]

theorem auth_over_limit_rejected (st : HyState) (host auth : String) (tx now : Nat)
    (user : UserRecord) (hu : alookup st.users auth = some user)
    (hnew : (ipSetOf st auth).contains host = false)
    (hD : user.DeviceLimit > 0)
    (hlen : ((ipSetOf st auth).length : Int) ≥ user.DeviceLimit) :
    (Authenticate st host auth tx now).1 = false ∧
    (Authenticate st host auth tx now).2.1 = "" ∧
    ipSetOf (Authenticate st host auth tx now).2.2 auth = ipSetOf st auth := by
  by_cases hA : auth = ""
  · subst hA
    rw [auth_empty_rejected]
    exact ⟨rfl, rfl, rfl⟩
  · have hnew' : ((alookup st.onlineIPs auth).getD []).contains host = false := hnew
    have hlen' : (((alookup st.onlineIPs auth).getD []).length : Int) ≥
        user.DeviceLimit := hlen
    unfold Authenticate
    rw [if_neg hA, hu]
    dsimp only
    rw [if_neg (show ¬(((alookup st.onlineIPs auth).getD []).contains host = true) by
      rw [hnew']
      simp), if_pos ⟨hD, hlen'⟩]
    refine ⟨rfl, rfl, ?_⟩
    simp [ipSetOf, alookup_storeKey]

theorem auth_accepted (st : HyState) (host auth : String) (tx now : Nat)
    (user : UserRecord) (hA : auth ≠ "") (hu : alookup st.users auth = some user)
    (hok : (ipSetOf st auth).contains host = true ∨
      ¬(user.DeviceLimit > 0 ∧ ((ipSetOf st auth).length : Int) ≥ user.DeviceLimit)) :
    (Authenticate st host auth tx now).1 = true ∧
    (Authenticate st host auth tx now).2.1 = auth ∧
    host ∈ ipSetOf (Authenticate st host auth tx now).2.2 auth ∧
    alookup (lastActiveOf (Authenticate st host auth tx now).2.2 auth) host = some now := by
  unfold Authenticate
  rw [if_neg hA, hu]
  dsimp only
  by_cases hc : ((alookup st.onlineIPs auth).getD []).contains host = true
  · rw [if_pos hc]
    refine ⟨rfl, rfl, ?_, ?_⟩
    · have hmem : host ∈ (alookup st.onlineIPs auth).getD [] := by simpa using hc
      simp [ipSetOf, alookup_storeKey, hmem]
    · simp [lastActiveOf, alookup_storeKey]
  · have hcond : ¬(user.DeviceLimit > 0 ∧
        (((alookup st.onlineIPs auth).getD []).length : Int) ≥ user.DeviceLimit) := by
      rcases hok with hok | hok
      · exact absurd (show ((alookup st.onlineIPs auth).getD []).contains host = true
          from hok) hc
      · exact hok
    rw [if_neg hc, if_neg hcond]
    refine ⟨rfl, rfl, ?_, ?_⟩
    · simp [ipSetOf, alookup_storeKey]
    · simp [lastActiveOf, alookup_storeKey]

theorem auth_preserves_bound (st : HyState) (host auth a : String) (tx now : Nat)
    (user : UserRecord) (D : Int) (hu : alookup st.users auth = some user)
    (hD : user.DeviceLimit = D) (hpos : D > 0)
    (hle : ((ipSetOf st auth).length : Int) ≤ D) :
    ((ipSetOf (Authenticate st host a tx now).2.2 auth).length : Int) ≤ D := by
  by_cases hA : a = ""
  · subst hA
    rw [auth_empty_rejected]
    exact hle
  · unfold Authenticate
    rw [if_neg hA]
    rcases ha : alookup st.users a with _ | user'
    · exact hle
    · dsimp only
      by_cases hsame : a = auth
      · subst hsame
        have huser : user' = user := by
          rw [ha] at hu
          exact Option.some_injective _ hu
        subst huser
        by_cases hc : ((alookup st.onlineIPs a).getD []).contains host = true
        · rw [if_pos hc]
          simpa [ipSetOf, alookup_storeKey] using hle
        · by_cases hcond : user'.DeviceLimit > 0 ∧
              (((alookup st.onlineIPs a).getD []).length : Int) ≥ user'.DeviceLimit
          · rw [if_neg hc, if_pos hcond]
            simpa [ipSetOf, alookup_storeKey] using hle
          · rw [if_neg hc, if_neg hcond]
            have hlt : (((alookup st.onlineIPs a).getD []).length : Int) < D := by
              rcases not_and_or.mp hcond with hbad | hlen2
              · rw [hD] at hbad
                exact absurd hpos hbad
              · rw [hD] at hlen2
                omega
            simp only [ipSetOf, alookup_storeKey, if_true, Option.getD_some,
              List.length_append, List.length_singleton]
            push_cast
            omega
      · have hns : ¬(a = auth) := hsame
        by_cases hc : ((alookup st.onlineIPs a).getD []).contains host = true
        · rw [if_pos hc]
          simpa [ipSetOf, alookup_storeKey, hns] using hle
        · by_cases hcond : user'.DeviceLimit > 0 ∧
              (((alookup st.onlineIPs a).getD []).length : Int) ≥ user'.DeviceLimit
          · rw [if_neg hc, if_pos hcond]
            simpa [ipSetOf, alookup_storeKey, hns] using hle
          · rw [if_neg hc, if_neg hcond]
            simpa [ipSetOf, alookup_storeKey, hns] using hle

/-- C1: Authenticate rejects an empty auth string and an unknown auth
key with (false, empty); a host not yet online for a user at or over a
positive DeviceLimit is rejected with (false, empty) and the online-IP
set unchanged; otherwise the host is inserted, ipLastActive is stamped
with the current time, and (true, auth) is returned; consequently a
user online-IP set of size at most DeviceLimit stays at most
DeviceLimit across any Authenticate call. -/
theorem Authenticate_device_limit :
    (∀ (st : HyState) (host : String) (tx now : Nat),
      Authenticate st host "" tx now = (false, "", st)) ∧
    (∀ (st : HyState) (host auth : String) (tx now : Nat),
      auth ≠ "" → alookup st.users auth = none →
      Authenticate st host auth tx now = (false, "", st)) ∧
    (∀ (st : HyState) (host auth : String) (tx now : Nat) (user : UserRecord),
      alookup st.users auth = some user →
      (ipSetOf st auth).contains host = false →
      user.DeviceLimit > 0 →
      ((ipSetOf st auth).length : Int) ≥ user.DeviceLimit →
      (Authenticate st host auth tx now).1 = false ∧
      (Authenticate st host auth tx now).2.1 = "" ∧
      ipSetOf (Authenticate st host auth tx now).2.2 auth = ipSetOf st auth) ∧
    (∀ (st : HyState) (host auth : String) (tx now : Nat) (user : UserRecord),
      auth ≠ "" → alookup st.users auth = some user →
      ((ipSetOf st auth).contains host = true ∨
        ¬(user.DeviceLimit > 0 ∧ ((ipSetOf st auth).length : Int) ≥ user.DeviceLimit)) →
      (Authenticate st host auth tx now).1 = true ∧
      (Authenticate st host auth tx now).2.1 = auth ∧
      host ∈ ipSetOf (Authenticate st host auth tx now).2.2 auth ∧
      alookup (lastActiveOf (Authenticate st host auth tx now).2.2 auth) host =
        some now) ∧
    (∀ (st : HyState) (host auth a : String) (tx now : Nat) (user : UserRecord) (D : Int),
      alookup st.users auth = some user →
      user.DeviceLimit = D → D > 0 →
      ((ipSetOf st auth).length : Int) ≤ D →
      ((ipSetOf (Authenticate st host a tx now).2.2 auth).length : Int) ≤ D) := by
  refine ⟨auth_empty_rejected, auth_unknown_rejected, ?_, ?_, ?_⟩
  · intro st host auth tx now user hu hnew hD hlen
    exact auth_over_limit_rejected st host auth tx now user hu hnew hD hlen
  · intro st host auth tx now user hA hu hok
    exact auth_accepted st host auth tx now user hA hu hok
  · intro st host auth a tx now user D hu hD hpos hle
    exact auth_preserves_bound st host auth a tx now user D hu hD hpos hle

/-- C1 witness: user bob with DeviceLimit 2 already has two online IPs;
after an Authenticate call for a third IP the set still holds at most
two IPs. -/
theorem Authenticate_device_limit_witness :
    ((ipSetOf (Authenticate
        (HyState.mk none [("bob", ⟨7, "b@x", 2, 0⟩)] [] [("bob", ["1.1.1.1", "2.2.2.2"])]
          [] [] [] 0)
        "3.3.3.3" "bob" 0 9).2.2 "bob").length : Int) ≤ 2 :=
  Authenticate_device_limit.2.2.2.2
    (HyState.mk none [("bob", ⟨7, "b@x", 2, 0⟩)] [] [("bob", ["1.1.1.1", "2.2.2.2"])]
      [] [] [] 0)
    "3.3.3.3" "bob" "bob" 0 9 ⟨7, "b@x", 2, 0⟩ 2 (by decide) rfl (by decide) (by decide)

end Hysteria2

namespace Hysteria2

/-- C2: a connection id flagged in blockedIDs makes the next LogTraffic
call return false, clears the flag without touching any traffic counter
and without disturbing other flags, and a subsequent LogTraffic call
for the same id returns true: the flag is consumed exactly once. -/
theorem LogTraffic_blocked_once (st : HyState) (id : String) (tx rx tx2 rx2 : Nat)
    (hid : id ≠ "") (hb : id ∈ st.blockedIDs) :
    (LogTraffic st id tx rx).1 = false ∧
    (LogTraffic st id tx rx).2.traffic = st.traffic ∧
    id ∉ (LogTraffic st id tx rx).2.blockedIDs ∧
    (∀ j, j ≠ id → (j ∈ (LogTraffic st id tx rx).2.blockedIDs ↔ j ∈ st.blockedIDs)) ∧
    (LogTraffic (LogTraffic st id tx rx).2 id tx2 rx2).1 = true := by
  have hb' : st.blockedIDs.contains id = true := by simpa using hb
  have hstep : LogTraffic st id tx rx =
      (false, { st with blockedIDs := st.blockedIDs.filter (fun x => x ≠ id) }) := by
    unfold LogTraffic
    rw [if_neg hid, if_pos hb']
  rw [hstep]
  refine ⟨rfl, rfl, ?_, ?_, ?_⟩
  · simp
  · intro j hj
    simp [List.mem_filter, hj]
  · have hnb : ({ st with blockedIDs := st.blockedIDs.filter (fun x => x ≠ id) } :
        HyState).blockedIDs.contains id = false := by
      simp
    unfold LogTraffic
    rw [if_neg hid]
    dsimp only
    rw [hnb]
    simp only [Bool.false_eq_true, if_false]
    split
    · rfl
    · rfl

/-- C2 witness: state with the single blocked id conn: the first call
returns false consuming the flag, the second returns true. -/
theorem LogTraffic_blocked_once_witness :
    (LogTraffic (HyState.mk none [] [] [] [] ["conn"] [] 0) "conn" 5 6).1 = false ∧
    (LogTraffic (HyState.mk none [] [] [] [] ["conn"] [] 0) "conn" 5 6).2.traffic =
      (HyState.mk none [] [] [] [] ["conn"] [] 0).traffic ∧
    "conn" ∉ (LogTraffic (HyState.mk none [] [] [] [] ["conn"] [] 0) "conn" 5 6).2.blockedIDs ∧
    (∀ j, j ≠ "conn" →
      (j ∈ (LogTraffic (HyState.mk none [] [] [] [] ["conn"] [] 0) "conn" 5 6).2.blockedIDs ↔
        j ∈ (HyState.mk none [] [] [] [] ["conn"] [] 0).blockedIDs)) ∧
    (LogTraffic (LogTraffic (HyState.mk none [] [] [] [] ["conn"] [] 0) "conn" 5 6).2
      "conn" 7 8).1 = true :=
  LogTraffic_blocked_once (HyState.mk none [] [] [] [] ["conn"] [] 0) "conn" 5 6 7 8
    (by decide) (by simp)

end Hysteria2

theorem alookup_eq_none_iff {α : Type} (m : List (String × α)) (k : String) :
    alookup m k = none ↔ k ∉ m.map Prod.fst := by
  induction m with
  | nil => simp [alookup]
  | cons hd tl ih =>
      obtain ⟨k', v⟩ := hd
      by_cases h : k' = k
      · subst h
        simp [alookup]
      · have h' : ¬k = k' := fun hh => h hh.symm
        simp [alookup, h, h', ih]

namespace Hysteria2

theorem collectTraffic_newT (users : List (String × UserRecord))
    (traffic : List (String × UserTraffic)) (k : String) :
    alookup (collectTraffic users traffic).2.2 k =
      match alookup traffic k with
      | none => none
      | some c =>
          match alookup users k with
          | none => some c
          | some _ => if c.Upload = 0 ∧ c.Download = 0 then some c else some ⟨0, 0⟩ := by
  induction traffic with
  | nil => rfl
  | cons hd tl ih =>
      obtain ⟨k', t⟩ := hd
      by_cases hk : k' = k
      · subst hk
        simp only [collectTraffic, alookup]
        cases hu : alookup users k' with
        | none => simp [alookup, hu]
        | some u =>
            by_cases hz : t.Upload = 0 ∧ t.Download = 0
            · simp [alookup, hu, hz]
            · simp [alookup, hu, hz]
      · simp only [collectTraffic, alookup]
        cases hu : alookup users k' with
        | none => simp [alookup, hk, ih]
        | some u =>
            by_cases hz : t.Upload = 0 ∧ t.Download = 0
            · simp [alookup, hk, hz, ih]
            · simp [alookup, hk, hz, ih]

theorem collectTraffic_snap_removed (users : List (String × UserRecord))
    (traffic : List (String × UserTraffic)) (k : String)
    (hk : alookup users k = none) :
    alookup (collectTraffic users traffic).2.1 k = none := by
  induction traffic with
  | nil => rfl
  | cons hd tl ih =>
      obtain ⟨k', t⟩ := hd
      simp only [collectTraffic]
      cases hu : alookup users k' with
      | none => simpa using ih
      | some u =>
          by_cases hz : t.Upload = 0 ∧ t.Download = 0
          · simpa [hz] using ih
          · have hk' : ¬k' = k := by
              intro hh
              rw [hh, hk] at hu
              cases hu
            simp [hz, alookup, hk', ih]

theorem collectTraffic_snap_none_of_absent (users : List (String × UserRecord))
    (traffic : List (String × UserTraffic)) (k : String)
    (hk : alookup traffic k = none) :
    alookup (collectTraffic users traffic).2.1 k = none := by
  induction traffic with
  | nil => rfl
  | cons hd tl ih =>
      obtain ⟨k', t⟩ := hd
      have hk1 : ¬k' = k := by
        intro hh
        simp [alookup, hh] at hk
      have hk2 : alookup tl k = none := by
        simpa [alookup, hk1] using hk
      simp only [collectTraffic]
      cases hu : alookup users k' with
      | none => simpa using ih hk2
      | some u =>
          by_cases hz : t.Upload = 0 ∧ t.Download = 0
          · simpa [hz] using ih hk2
          · simp [hz, alookup, hk1, ih hk2]

theorem collectTraffic_snap_present (users : List (String × UserRecord))
    (traffic : List (String × UserTraffic)) (k : String)
    (hnd : (traffic.map Prod.fst).Nodup) :
    alookup (collectTraffic users traffic).2.1 k =
      match alookup traffic k with
      | none => none
      | some c =>
          match alookup users k with
          | none => none
          | some _ => if c.Upload = 0 ∧ c.Download = 0 then none else some c := by
  induction traffic with
  | nil => rfl
  | cons hd tl ih =>
      obtain ⟨k', t⟩ := hd
      have hnd0 : k' ∉ tl.map Prod.fst ∧ (tl.map Prod.fst).Nodup := by
        rw [List.map_cons] at hnd
        exact List.nodup_cons.mp hnd
      have hnd1 : k' ∉ tl.map Prod.fst := hnd0.1
      have hnd2 : (tl.map Prod.fst).Nodup := hnd0.2
      by_cases hk : k' = k
      · subst hk
        have htl : alookup tl k' = none := (alookup_eq_none_iff tl k').mpr hnd1
        have hhead : alookup ((k', t) :: tl) k' = some t := by simp [alookup]
        rw [hhead]
        simp only [collectTraffic]
        cases hu : alookup users k' with
        | none =>
            dsimp only
            exact collectTraffic_snap_removed users tl k' hu
        | some u =>
            by_cases hz : t.Upload = 0 ∧ t.Download = 0
            · rw [if_pos hz]
              dsimp only
              rw [if_pos hz]
              exact collectTraffic_snap_none_of_absent users tl k' htl
            · rw [if_neg hz]
              dsimp only
              rw [if_neg hz]
              simp [alookup]
      · simp only [collectTraffic, alookup]
        cases hu : alookup users k' with
        | none => simp [alookup, hk, ih hnd2]
        | some u =>
            by_cases hz : t.Upload = 0 ∧ t.Download = 0
            · simp [alookup, hk, hz, ih hnd2]
            · simp [alookup, hk, hz, ih hnd2]

theorem collectTraffic_snap_keys_sublist (users : List (String × UserRecord))
    (traffic : List (String × UserTraffic)) :
    ((collectTraffic users traffic).2.1.map Prod.fst).Sublist (traffic.map Prod.fst) := by
  induction traffic with
  | nil => simp [collectTraffic]
  | cons hd tl ih =>
      obtain ⟨k', t⟩ := hd
      simp only [collectTraffic]
      cases hu : alookup users k' with
      | none =>
          simp only [List.map_cons]
          exact ih.cons k'
      | some u =>
          by_cases hz : t.Upload = 0 ∧ t.Download = 0
          · simp only [hz, if_true, List.map_cons]
            exact ih.cons k'
          · simp only [hz, if_false, List.map_cons]
            exact ih.cons₂ k'

theorem collectTraffic_report_from_users (users : List (String × UserRecord))
    (traffic : List (String × UserTraffic)) :
    ∀ e ∈ (collectTraffic users traffic).1, ∃ kk u,
      alookup users kk = some u ∧ e.UID = u.UID ∧ e.Email = u.Email := by
  induction traffic with
  | nil => simp [collectTraffic]
  | cons hd tl ih =>
      obtain ⟨k', t⟩ := hd
      simp only [collectTraffic]
      cases hu : alookup users k' with
      | none => simpa using ih
      | some u =>
          by_cases hz : t.Upload = 0 ∧ t.Download = 0
          · simpa [hz] using ih
          · intro e he
            simp only [hz, if_false, List.mem_cons] at he
            rcases he with rfl | he
            · exact ⟨k', u, hu, rfl, rfl⟩
            · exact ih e he

theorem restoreFold_absent (snap : List (String × UserTraffic)) (k : String)
    (hk : k ∉ snap.map Prod.fst) :
    ∀ traffic, alookup (snap.foldl restoreOne traffic) k = alookup traffic k := by
  induction snap with
  | nil => intro traffic; rfl
  | cons hd tl ih =>
      obtain ⟨k', s⟩ := hd
      intro traffic
      have hk1 : ¬k = k' := by
        intro hh
        exact hk (by simp [hh])
      have hk2 : k ∉ tl.map Prod.fst := fun hh => hk (by simp [hh])
      have hk1' : ¬k' = k := fun hh => hk1 hh.symm
      simp only [List.foldl_cons]
      rw [ih hk2]
      unfold restoreOne
      rw [alookup_storeKey]
      simp [hk1']

theorem restoreFold_present (snap : List (String × UserTraffic)) (k : String)
    (s : UserTraffic) (hnd : (snap.map Prod.fst).Nodup)
    (hs : alookup snap k = some s) :
    ∀ traffic, alookup (snap.foldl restoreOne traffic) k =
      some ⟨wrap64 (((alookup traffic k).getD ⟨0, 0⟩).Upload + s.Upload),
            wrap64 (((alookup traffic k).getD ⟨0, 0⟩).Download + s.Download)⟩ := by
  induction snap with
  | nil => intro traffic; cases hs
  | cons hd tl ih =>
      obtain ⟨k', s'⟩ := hd
      have hnd0 : k' ∉ tl.map Prod.fst ∧ (tl.map Prod.fst).Nodup := by
        rw [List.map_cons] at hnd
        exact List.nodup_cons.mp hnd
      have hnd1 : k' ∉ tl.map Prod.fst := hnd0.1
      have hnd2 : (tl.map Prod.fst).Nodup := hnd0.2
      intro traffic
      by_cases hk : k' = k
      · subst hk
        have hss : s' = s := by
          simpa [alookup] using hs
        subst hss
        simp only [List.foldl_cons]
        rw [restoreFold_absent tl k' hnd1]
        unfold restoreOne
        rw [alookup_storeKey]
        simp
      · have hs2 : alookup tl k = some s := by
          simpa [alookup, hk] using hs
        simp only [List.foldl_cons]
        rw [ih hnd2 hs2]
        unfold restoreOne
        rw [alookup_storeKey]
        simp [hk]

end Hysteria2

namespace Hysteria2

/-- C3: restoreTraffic applied to the snapshot returned by collectUsage,
with no traffic callback in between, restores every per-auth-key
traffic counter to its value before collectUsage.  The hypotheses state
two facts every Go state satisfies by construction: map keys are unique
and int64 counters lie in the signed 64-bit range. -/
theorem collect_restore_identity (st : HyState)
    (hnd : (st.traffic.map Prod.fst).Nodup)
    (hwf : ∀ k c, alookup st.traffic k = some c →
      -(2 ^ 63) ≤ c.Upload ∧ c.Upload < 2 ^ 63 ∧
      -(2 ^ 63) ≤ c.Download ∧ c.Download < 2 ^ 63) :
    ∀ k, alookup (restoreTraffic (collectUsage st).2 (collectUsage st).1.2.2).traffic k =
      alookup st.traffic k := by
  intro k
  unfold restoreTraffic collectUsage
  dsimp only
  split
  · rename_i hempty
    rw [collectTraffic_newT]
    cases ht : alookup st.traffic k with
    | none => rfl
    | some c =>
        cases hu : alookup st.users k with
        | none => rfl
        | some u =>
            by_cases hz : c.Upload = 0 ∧ c.Download = 0
            · dsimp only
              rw [if_pos hz]
            · exfalso
              have hsnap := collectTraffic_snap_present st.users st.traffic k hnd
              rw [ht, hempty] at hsnap
              dsimp only at hsnap
              rw [hu, if_neg hz] at hsnap
              cases hsnap
  · have hsnap := collectTraffic_snap_present st.users st.traffic k hnd
    have hnewT := collectTraffic_newT st.users st.traffic k
    have hndsnap : (((collectTraffic st.users st.traffic).2.1).map Prod.fst).Nodup :=
      (collectTraffic_snap_keys_sublist st.users st.traffic).nodup hnd
    cases ht : alookup st.traffic k with
    | none =>
        rw [ht] at hsnap hnewT
        dsimp only at hsnap hnewT
        rw [restoreFold_absent _ k ((alookup_eq_none_iff _ k).mp hsnap), hnewT]
    | some c =>
        rw [ht] at hsnap hnewT
        dsimp only at hsnap hnewT
        cases hu : alookup st.users k with
        | none =>
            rw [hu] at hsnap hnewT
            dsimp only at hsnap hnewT
            rw [restoreFold_absent _ k ((alookup_eq_none_iff _ k).mp hsnap), hnewT]
        | some u =>
            rw [hu] at hsnap hnewT
            dsimp only at hsnap hnewT
            by_cases hz : c.Upload = 0 ∧ c.Download = 0
            · rw [if_pos hz] at hsnap
              rw [if_pos hz] at hnewT
              rw [restoreFold_absent _ k ((alookup_eq_none_iff _ k).mp hsnap), hnewT]
            · rw [if_neg hz] at hsnap
              rw [if_neg hz] at hnewT
              rw [restoreFold_present _ k c hndsnap hsnap, hnewT]
              obtain ⟨h1, h2, h3, h4⟩ := hwf k c ht
              dsimp only [Option.getD_some]
              rw [zero_add, zero_add,
                wrap64_eq_of_range _ h1 h2, wrap64_eq_of_range _ h3 h4]

/-- C3 witness: the identity applied at a state with one user and one
nonzero counter. -/
theorem collect_restore_identity_witness :
    alookup (restoreTraffic
      (collectUsage (HyState.mk none [("a", ⟨1, "a@x", 0, 0⟩)] [("a", ⟨100, 200⟩)]
        [] [] [] [] 0)).2
      (collectUsage (HyState.mk none [("a", ⟨1, "a@x", 0, 0⟩)] [("a", ⟨100, 200⟩)]
        [] [] [] [] 0)).1.2.2).traffic "a" =
      alookup (HyState.mk none [("a", ⟨1, "a@x", 0, 0⟩)] [("a", ⟨100, 200⟩)]
        [] [] [] [] 0).traffic "a" :=
  collect_restore_identity
    (HyState.mk none [("a", ⟨1, "a@x", 0, 0⟩)] [("a", ⟨100, 200⟩)] [] [] [] [] 0)
    (by decide)
    (by
      intro k c h
      unfold alookup at h
      split at h
      · cases h
        norm_num
      · cases h)
    "a"

/-- C10: collectUsage leaves a traffic counter whose auth key is no
longer in the user map untouched: it is not reset, it does not appear
in the snapshot, and every row of the returned report stems from a key
still present in the user map. -/
theorem collectUsage_removed_key_frame (st : HyState) (k : String)
    (hk : alookup st.users k = none) :
    alookup (collectUsage st).2.traffic k = alookup st.traffic k ∧
    alookup (collectUsage st).1.2.2 k = none ∧
    (∀ e ∈ (collectUsage st).1.1, ∃ kk u, alookup st.users kk = some u ∧
      e.UID = u.UID ∧ e.Email = u.Email) := by
  refine ⟨?_, ?_, ?_⟩
  · show alookup (collectTraffic st.users st.traffic).2.2 k = alookup st.traffic k
    rw [collectTraffic_newT]
    cases ht : alookup st.traffic k with
    | none => rfl
    | some c =>
        dsimp only
        rw [hk]
  · exact collectTraffic_snap_removed st.users st.traffic k hk
  · exact collectTraffic_report_from_users st.users st.traffic

/-- C10 witness: a counter of a removed key survives collectUsage
unreported and unreset. -/
theorem collectUsage_removed_key_frame_witness :
    alookup (collectUsage (HyState.mk none [("a", ⟨1, "a@x", 0, 0⟩)]
      [("gone", ⟨100, 200⟩), ("a", ⟨1, 2⟩)] [] [] [] [] 0)).2.traffic "gone" =
      alookup (HyState.mk none [("a", ⟨1, "a@x", 0, 0⟩)]
        [("gone", ⟨100, 200⟩), ("a", ⟨1, 2⟩)] [] [] [] [] 0).traffic "gone" ∧
    alookup (collectUsage (HyState.mk none [("a", ⟨1, "a@x", 0, 0⟩)]
      [("gone", ⟨100, 200⟩), ("a", ⟨1, 2⟩)] [] [] [] [] 0)).1.2.2 "gone" = none ∧
    (∀ e ∈ (collectUsage (HyState.mk none [("a", ⟨1, "a@x", 0, 0⟩)]
      [("gone", ⟨100, 200⟩), ("a", ⟨1, 2⟩)] [] [] [] [] 0)).1.1,
      ∃ kk u, alookup (HyState.mk none [("a", ⟨1, "a@x", 0, 0⟩)]
        [("gone", ⟨100, 200⟩), ("a", ⟨1, 2⟩)] [] [] [] [] 0).users kk = some u ∧
        e.UID = u.UID ∧ e.Email = u.Email) :=
  collectUsage_removed_key_frame
    (HyState.mk none [("a", ⟨1, "a@x", 0, 0⟩)]
      [("gone", ⟨100, 200⟩), ("a", ⟨1, 2⟩)] [] [] [] [] 0)
    "gone" (by decide)

end Hysteria2

namespace Hysteria2

/-- C7: when the node fetch fails with the node-not-modified sentinel,
or returns a NodeInfo deeply equal to the current one, nodeMonitor
neither calls reloadNode nor changes any service state. -/
theorem nodeMonitor_skips_unchanged (elapsed : Nat) (cfg : HyConfig)
    (fetch : Except String (Option NodeInfo)) (st : HyState)
    (h : fetch = Except.error NodeNotModified ∨
      ∃ info, fetch = Except.ok (some info) ∧ st.nodeInfo = some info) :
    (nodeMonitor elapsed cfg fetch st).1 = st ∧
    ∀ info, HyEffect.reloadNode info ∉ (nodeMonitor elapsed cfg fetch st).2 := by
  unfold nodeMonitor
  by_cases he : elapsed < cfg.updatePeriodic
  · rw [if_pos he]
    exact ⟨rfl, by simp⟩
  · rw [if_neg he]
    rcases h with rfl | ⟨info, rfl, hcur⟩
    · exact ⟨rfl, by simp⟩
    · dsimp only
      by_cases hty : info.NodeType ≠ "Hysteria2"
      · rw [if_pos hty]
        exact ⟨rfl, by simp⟩
      · rw [if_neg hty, if_pos hcur]
        exact ⟨rfl, by simp⟩

/-- C7 witness: a fetch that fails with the sentinel leaves the state
untouched and triggers no reload. -/
theorem nodeMonitor_skips_unchanged_witness :
    (nodeMonitor 10 (HyConfig.mk 5 false false true "file")
      (Except.error NodeNotModified) (HyState.mk none [] [] [] [] [] [] 0)).1 =
      HyState.mk none [] [] [] [] [] [] 0 ∧
    ∀ info, HyEffect.reloadNode info ∉
      (nodeMonitor 10 (HyConfig.mk 5 false false true "file")
        (Except.error NodeNotModified) (HyState.mk none [] [] [] [] [] [] 0)).2 :=
  nodeMonitor_skips_unchanged 10 (HyConfig.mk 5 false false true "file")
    (Except.error NodeNotModified) (HyState.mk none [] [] [] [] [] [] 0) (Or.inl rfl)

/-- C8 counterexample: certMonitor carries no startAt delay guard, so
even immediately after startAt a TLS node in an ACME cert mode attempts
a certificate renewal and, on an actual rotation, reloads the node:
the body does not return without side effects as the claim asserts for
every periodic task. -/
theorem certMonitor_no_delay_counterexample :
    (certMonitor (HyConfig.mk 100 false false true "dns")
      (CertMonitorOracle.mk false (Except.ok true))
      (HyState.mk
        (some (NodeInfo.mk "Hysteria2" 1 443 0 true "s" "h" (some (Hy2Config.mk false ""))))
        [] [] [] [] [] [] 0)).2 =
      [HyEffect.renewCert,
       HyEffect.reloadNode
         (NodeInfo.mk "Hysteria2" 1 443 0 true "s" "h" (some (Hy2Config.mk false "")))] ∧
    (certMonitor (HyConfig.mk 100 false false true "dns")
      (CertMonitorOracle.mk false (Except.ok true))
      (HyState.mk
        (some (NodeInfo.mk "Hysteria2" 1 443 0 true "s" "h" (some (Hy2Config.mk false ""))))
        [] [] [] [] [] [] 0)).2 ≠ [] := by
  exact ⟨by decide, by decide⟩

/-- C8 (amended): userMonitor and nodeMonitor return immediately,
performing no panel call and changing no service state, when invoked
less than one update interval after startAt; certMonitor carries no
such guard. -/
theorem monitors_delay_first_run :
    (∀ (elapsed : Nat) (cfg : HyConfig) (o : UserMonitorOracle) (st : HyState),
      elapsed < cfg.updatePeriodic → userMonitor elapsed cfg o st = (st, [])) ∧
    (∀ (elapsed : Nat) (cfg : HyConfig) (fetch : Except String (Option NodeInfo))
      (st : HyState), elapsed < cfg.updatePeriodic →
      nodeMonitor elapsed cfg fetch st = (st, [])) := by
  constructor
  · intro elapsed cfg o st h
    unfold userMonitor
    rw [if_pos h]
  · intro elapsed cfg fetch st h
    unfold nodeMonitor
    rw [if_pos h]

/-- C8 witness: both guarded monitors invoked right at startAt return
the state unchanged with no effects. -/
theorem monitors_delay_first_run_witness :
    userMonitor 0 (HyConfig.mk 100 false false true "file")
      (UserMonitorOracle.mk true (Except.ok []) (Except.ok 0) false (Except.ok 0))
      (HyState.mk none [] [] [] [] [] [] 0) =
      (HyState.mk none [] [] [] [] [] [] 0, []) ∧
    nodeMonitor 0 (HyConfig.mk 100 false false true "file")
      (Except.error NodeNotModified) (HyState.mk none [] [] [] [] [] [] 0) =
      (HyState.mk none [] [] [] [] [] [] 0, []) :=
  ⟨monitors_delay_first_run.1 0 (HyConfig.mk 100 false false true "file")
      (UserMonitorOracle.mk true (Except.ok []) (Except.ok 0) false (Except.ok 0))
      (HyState.mk none [] [] [] [] [] [] 0) (by decide),
   monitors_delay_first_run.2 0 (HyConfig.mk 100 false false true "file")
      (Except.error NodeNotModified) (HyState.mk none [] [] [] [] [] [] 0) (by decide)⟩

end Hysteria2

namespace Hysteria2

theorem applyKey_preserves_other (record : UserRecord) (lim : Option Nat)
    (acc : SyncAcc) (k q : String) (h : q ≠ k) :
    alookup (applyKey record lim acc k).newRateLimiters q =
      alookup acc.newRateLimiters q := by
  unfold applyKey
  split
  · rfl
  · dsimp only
    cases lim with
    | none => rfl
    | some l =>
        rw [alookup_storeKey, if_neg (fun hh => h hh.symm)]

theorem syncOneUser_preserves_other (oldRL : List (String × Nat)) (nodeLimit : Nat)
    (acc : SyncAcc) (v : UserInfo) (q : String)
    (h1 : q ≠ v.UUID) (h2 : q ≠ v.Passwd) :
    alookup (syncOneUser oldRL nodeLimit acc v).newRateLimiters q =
      alookup acc.newRateLimiters q := by
  unfold syncOneUser
  dsimp only
  simp only [List.foldl_cons, List.foldl_nil]
  rw [applyKey_preserves_other _ _ _ _ _ h2, applyKey_preserves_other _ _ _ _ _ h1]

theorem syncOneUser_binds_both (oldRL : List (String × Nat)) (nodeLimit : Nat)
    (u : UserInfo) (hU : u.UUID ≠ "") (hP : u.Passwd ≠ "") (hUP : u.UUID ≠ u.Passwd)
    (hrate : 0 < determineRate nodeLimit u.SpeedLimit) (acc : SyncAcc) :
    ∃ id, alookup (syncOneUser oldRL nodeLimit acc u).newRateLimiters u.UUID = some id ∧
      alookup (syncOneUser oldRL nodeLimit acc u).newRateLimiters u.Passwd = some id := by
  unfold syncOneUser
  dsimp only
  rw [if_pos hrate]
  rcases hr : reuseLimiter oldRL [u.UUID, u.Passwd] with _ | l
  · dsimp only
    simp only [List.foldl_cons, List.foldl_nil]
    unfold applyKey
    rw [if_neg hP, if_neg hU]
    dsimp only
    refine ⟨acc.nextId, ?_, ?_⟩
    · rw [alookup_storeKey, if_neg (fun hh => hUP hh.symm), alookup_storeKey, if_pos rfl]
    · rw [alookup_storeKey, if_pos rfl]
  · dsimp only
    simp only [List.foldl_cons, List.foldl_nil]
    unfold applyKey
    rw [if_neg hP, if_neg hU]
    dsimp only
    refine ⟨l, ?_, ?_⟩
    · rw [alookup_storeKey, if_neg (fun hh => hUP hh.symm), alookup_storeKey, if_pos rfl]
    · rw [alookup_storeKey, if_pos rfl]

theorem syncFold_preserves (oldRL : List (String × Nat)) (nodeLimit : Nat)
    (u : UserInfo) (hU : u.UUID ≠ "") (hP : u.Passwd ≠ "") (hUP : u.UUID ≠ u.Passwd)
    (hrate : 0 < determineRate nodeLimit u.SpeedLimit) :
    ∀ (L : List UserInfo) (acc : SyncAcc),
      (∀ v ∈ L, v = u ∨ (v.UUID ≠ u.UUID ∧ v.UUID ≠ u.Passwd ∧
        v.Passwd ≠ u.UUID ∧ v.Passwd ≠ u.Passwd)) →
      (∃ id, alookup acc.newRateLimiters u.UUID = some id ∧
        alookup acc.newRateLimiters u.Passwd = some id) →
      ∃ id, alookup (L.foldl (syncOneUser oldRL nodeLimit) acc).newRateLimiters u.UUID =
          some id ∧
        alookup (L.foldl (syncOneUser oldRL nodeLimit) acc).newRateLimiters u.Passwd =
          some id := by
  intro L
  induction L with
  | nil => intro acc _ hacc; exact hacc
  | cons v rest ih =>
      intro acc hall hacc
      simp only [List.foldl_cons]
      apply ih _ (fun w hw => hall w (List.mem_cons_of_mem v hw))
      rcases hall v (List.mem_cons_self v rest) with rfl | ⟨d1, d2, d3, d4⟩
      · exact syncOneUser_binds_both oldRL nodeLimit v hU hP hUP hrate acc
      · obtain ⟨id, ha, hb⟩ := hacc
        refine ⟨id, ?_, ?_⟩
        · rw [syncOneUser_preserves_other oldRL nodeLimit acc v u.UUID
            (fun hh => d1 hh.symm) (fun hh => d3 hh.symm)]
          exact ha
        · rw [syncOneUser_preserves_other oldRL nodeLimit acc v u.Passwd
            (fun hh => d2 hh.symm) (fun hh => d4 hh.symm)]
          exact hb

theorem syncFold_main (oldRL : List (String × Nat)) (nodeLimit : Nat)
    (u : UserInfo) (hU : u.UUID ≠ "") (hP : u.Passwd ≠ "") (hUP : u.UUID ≠ u.Passwd)
    (hrate : 0 < determineRate nodeLimit u.SpeedLimit) :
    ∀ (L : List UserInfo) (acc : SyncAcc), u ∈ L →
      (∀ v ∈ L, v = u ∨ (v.UUID ≠ u.UUID ∧ v.UUID ≠ u.Passwd ∧
        v.Passwd ≠ u.UUID ∧ v.Passwd ≠ u.Passwd)) →
      ∃ id, alookup (L.foldl (syncOneUser oldRL nodeLimit) acc).newRateLimiters u.UUID =
          some id ∧
        alookup (L.foldl (syncOneUser oldRL nodeLimit) acc).newRateLimiters u.Passwd =
          some id := by
  intro L
  induction L with
  | nil => intro acc hmem _; cases hmem
  | cons v rest ih =>
      intro acc hmem hall
      simp only [List.foldl_cons]
      by_cases hvu : v = u
      · subst hvu
        exact syncFold_preserves oldRL nodeLimit v hU hP hUP hrate rest
          (syncOneUser oldRL nodeLimit acc v)
          (fun w hw => hall w (List.mem_cons_of_mem v hw))
          (syncOneUser_binds_both oldRL nodeLimit v hU hP hUP hrate acc)
      · have hmem' : u ∈ rest := by
          rcases List.mem_cons.mp hmem with rfl | hh
          · exact absurd rfl hvu
          · exact hh
        exact ih (syncOneUser oldRL nodeLimit acc v) hmem'
          (fun w hw => hall w (List.mem_cons_of_mem v hw))

/-- C9 counterexample: the claim fails as stated.  With node and user
speed limits 0 the first user gets no limiter at all, so neither of its
keys is bound; and with a later user whose UUID collides with an
earlier user Passwd, the second store overwrites the binding, so the
earlier user keys point at two different limiters. -/
theorem syncUsers_shared_limiter_counterexample :
    (¬ ∃ id,
      alookup (syncUsers (HyState.mk none [] [] [] [] [] [] 0)
        (some [UserInfo.mk 1 "a@x" "u" "p" 0 0, UserInfo.mk 2 "b@x" "x" "y" 0 100,
          UserInfo.mk 3 "c@x" "y" "z" 0 100])).rateLimiters "u" = some id ∧
      alookup (syncUsers (HyState.mk none [] [] [] [] [] [] 0)
        (some [UserInfo.mk 1 "a@x" "u" "p" 0 0, UserInfo.mk 2 "b@x" "x" "y" 0 100,
          UserInfo.mk 3 "c@x" "y" "z" 0 100])).rateLimiters "p" = some id) ∧
    (¬ ∃ id,
      alookup (syncUsers (HyState.mk none [] [] [] [] [] [] 0)
        (some [UserInfo.mk 1 "a@x" "u" "p" 0 0, UserInfo.mk 2 "b@x" "x" "y" 0 100,
          UserInfo.mk 3 "c@x" "y" "z" 0 100])).rateLimiters "x" = some id ∧
      alookup (syncUsers (HyState.mk none [] [] [] [] [] [] 0)
        (some [UserInfo.mk 1 "a@x" "u" "p" 0 0, UserInfo.mk 2 "b@x" "x" "y" 0 100,
          UserInfo.mk 3 "c@x" "y" "z" 0 100])).rateLimiters "y" = some id) := by
  constructor
  · rintro ⟨id, h1, -⟩
    have hu : alookup (syncUsers (HyState.mk none [] [] [] [] [] [] 0)
        (some [UserInfo.mk 1 "a@x" "u" "p" 0 0, UserInfo.mk 2 "b@x" "x" "y" 0 100,
          UserInfo.mk 3 "c@x" "y" "z" 0 100])).rateLimiters "u" = none := by decide
    rw [hu] at h1
    cases h1
  · rintro ⟨id, h1, h2⟩
    have hx : alookup (syncUsers (HyState.mk none [] [] [] [] [] [] 0)
        (some [UserInfo.mk 1 "a@x" "u" "p" 0 0, UserInfo.mk 2 "b@x" "x" "y" 0 100,
          UserInfo.mk 3 "c@x" "y" "z" 0 100])).rateLimiters "x" = some 0 := by decide
    have hy : alookup (syncUsers (HyState.mk none [] [] [] [] [] [] 0)
        (some [UserInfo.mk 1 "a@x" "u" "p" 0 0, UserInfo.mk 2 "b@x" "x" "y" 0 100,
          UserInfo.mk 3 "c@x" "y" "z" 0 100])).rateLimiters "y" = some 1 := by decide
    rw [hx] at h1
    rw [hy] at h2
    obtain rfl : (0 : Nat) = id := Option.some_injective _ h1
    exact absurd (Option.some_injective _ h2) (by decide)

/-- C9 (amended): after syncUsers(L), a user entry whose UUID and Passwd
are both non-empty and distinct, whose effective rate limit is
positive, and whose keys are not shared by any other entry of L, has
both auth keys bound to the same rate limiter in the rateLimiters
map. -/
theorem syncUsers_shared_limiter (st : HyState) (L : List UserInfo) (u : UserInfo)
    (hmem : u ∈ L) (hU : u.UUID ≠ "") (hP : u.Passwd ≠ "") (hUP : u.UUID ≠ u.Passwd)
    (hrate : 0 < determineRate (nodeLimitOf st) u.SpeedLimit)
    (hall : ∀ v ∈ L, v = u ∨ (v.UUID ≠ u.UUID ∧ v.UUID ≠ u.Passwd ∧
      v.Passwd ≠ u.UUID ∧ v.Passwd ≠ u.Passwd)) :
    ∃ id, alookup (syncUsers st (some L)).rateLimiters u.UUID = some id ∧
      alookup (syncUsers st (some L)).rateLimiters u.Passwd = some id := by
  unfold syncUsers
  dsimp only
  exact syncFold_main st.rateLimiters (nodeLimitOf st) u hU hP hUP hrate L _ hmem hall

/-- C9 witness: a single user with distinct non-empty keys and a
positive speed limit gets one limiter bound to both keys. -/
theorem syncUsers_shared_limiter_witness :
    ∃ id, alookup (syncUsers (HyState.mk none [] [] [] [] [] [] 0)
        (some [UserInfo.mk 1 "a@x" "uu" "pp" 0 50])).rateLimiters "uu" = some id ∧
      alookup (syncUsers (HyState.mk none [] [] [] [] [] [] 0)
        (some [UserInfo.mk 1 "a@x" "uu" "pp" 0 50])).rateLimiters "pp" = some id :=
  syncUsers_shared_limiter (HyState.mk none [] [] [] [] [] [] 0)
    [UserInfo.mk 1 "a@x" "uu" "pp" 0 50] (UserInfo.mk 1 "a@x" "uu" "pp" 0 50)
    (List.mem_singleton.mpr rfl) (by decide) (by decide) (by decide) (by decide)
    (fun v hv => Or.inl (List.mem_singleton.mp hv))

end Hysteria2
